import Mathlib

/-
Verification of the p2-parser recursive-descent parser (p2-parser.c).

The C source is shallowly embedded: the token queue becomes a `List Token`,
every parsing routine becomes a function `List Token → Except Err (α × List Token)`
returning the parsed node together with the remaining tokens, and the
`Error_throw_printf` abort mechanism becomes the `Except.error` branch carrying
the formatted message.  Mutually recursive grammar rules are indexed by an
explicit fuel parameter; running out of fuel yields the distinguished error
`Err.fuel`, which never coincides with an error the C program can raise.
Reads through a null pointer (the unchecked `input->head->next` lookahead and
`TokenQueue_remove` on an empty queue) are modelled by the distinguished
error `Err.nullDeref`.
-/

namespace P2Parser

/-- Token categories, mirroring the `TokenType` enumeration used by the
lexer collaborator (KEY, ID, SYM, DECLIT, HEXLIT, STRLIT). -/
inductive TokenType where
  | KEY
  | ID
  | SYM
  | DECLIT
  | HEXLIT
  | STRLIT
deriving DecidableEq, Repr

/-- A lexical token: classified type, literal text, 1-based source line. -/
structure Token where
  type : TokenType
  text : String
  line : Nat
deriving DecidableEq, Repr

/-- Decaf types, mirroring the `DecafType` enumeration (INT, BOOL, VOID). -/
inductive DecafType where
  | INT
  | BOOL
  | VOID
deriving DecidableEq, Repr

/-- Binary operators, mirroring the `BinaryOpType` enumeration. -/
inductive BinOp where
  | OROP
  | ANDOP
  | EQOP
  | NEQOP
  | LTOP
  | LEOP
  | GTOP
  | GEOP
  | ADDOP
  | SUBOP
  | MULOP
  | DIVOP
  | MODOP
deriving DecidableEq, Repr

/-- Unary operators, mirroring the `UnaryOpType` enumeration. -/
inductive UnOp where
  | NEGOP
  | NOTOP
deriving DecidableEq, Repr

/-- AST nodes, mirroring the `ASTNode` tagged union of the C AST library:
one constructor per node kind, each non-program node carrying its source
line. -/
inductive ASTNode where
  | Program (vars : List ASTNode) (funcs : List ASTNode)
  | VarDecl (name : String) (ty : DecafType) (is_array : Bool) (array_length : Int) (line : Nat)
  | FuncDecl (name : String) (return_type : DecafType) (params : List (String × DecafType)) (body : ASTNode) (line : Nat)
  | Block (vars : List ASTNode) (stmts : List ASTNode) (line : Nat)
  | Assignment (loc : ASTNode) (value : ASTNode) (line : Nat)
  | Conditional (condition : ASTNode) (if_block : ASTNode) (else_block : Option ASTNode) (line : Nat)
  | WhileLoop (condition : ASTNode) (body : ASTNode) (line : Nat)
  | Return (value : Option ASTNode) (line : Nat)
  | Break (line : Nat)
  | Continue (line : Nat)
  | BinaryOp (op : BinOp) (left : ASTNode) (right : ASTNode) (line : Nat)
  | UnaryOp (op : UnOp) (child : ASTNode) (line : Nat)
  | Location (name : String) (index : Option ASTNode) (line : Nat)
  | FuncCall (name : String) (args : List ASTNode) (line : Nat)
  | LiteralInt (value : Int) (line : Nat)
  | LiteralBool (value : Bool) (line : Nat)
  | LiteralStr (value : String) (line : Nat)

/-- Outcomes of `Error_throw_printf` and of the undefined behaviours the C
code can reach: `msg` carries the formatted abort message, `nullDeref` marks
a dereference of a non-existent queue node, and `fuel` marks exhaustion of
the embedding fuel (never raised by the program itself). -/
inductive Err where
  | msg (s : String)
  | fuel
  | nullDeref
deriving DecidableEq, Repr

/-- Single-quote character, as it appears inside the C error format strings. -/
def sq : String := "\x27"

/-- Sequence a parsing step that returns a value and the remaining queue. -/
def pbind {α β : Type} (x : Except Err (α × List Token)) (f : α → List Token → Except Err β) : Except Err β :=
  match x with
  | .error e => .error e
  | .ok (a, rest) => f a rest

/-- Sequence a parsing step that only consumes tokens. -/
def qbind {β : Type} (x : Except Err (List Token)) (f : List Token → Except Err β) : Except Err β :=
  match x with
  | .error e => .error e
  | .ok rest => f rest

/-- Embeds `get_next_token_line`: the line of the next token; error on an
empty queue. -/
def get_next_token_line (input : List Token) : Except Err Nat :=
  match input with
  | [] => .error (.msg "Unexpected end of input\n")
  | t :: _ => .ok t.line

/-- Embeds `match_and_discard_next_token`: remove the next token and check its
type and text.  On a mismatch the C code formats the message with
`get_next_token_line(input)` evaluated after the removal, so the reported line
is that of the token following the mismatched one, and an empty remainder
aborts with the end-of-input message instead. -/
def match_and_discard_next_token (input : List Token) (type : TokenType) (text : String) : Except Err (List Token) :=
  match input with
  | [] => .error (.msg ("Unexpected end of input (expected " ++ sq ++ text ++ sq ++ ")\n"))
  | token :: rest =>
    if token.type != type || token.text != text then
      match get_next_token_line rest with
      | .error e => .error e
      | .ok line =>
        .error (.msg ("Expected " ++ sq ++ text ++ sq ++ " but found " ++ sq ++ token.text
          ++ sq ++ " on line " ++ toString line ++ "\n"))
    else
      .ok rest

/-- Embeds `discard_next_token`. -/
def discard_next_token (input : List Token) : Except Err (List Token) :=
  match input with
  | [] => .error (.msg "Unexpected end of input\n")
  | _ :: rest => .ok rest

/-- Embeds `check_next_token_type`: peek at the type of the next token
(false, not an error, on an empty queue). -/
def check_next_token_type (input : List Token) (type : TokenType) : Bool :=
  match input with
  | [] => false
  | t :: _ => t.type == type

/-- Embeds `check_next_token`: peek at the type and text of the next token
(false, not an error, on an empty queue). -/
def check_next_token (input : List Token) (type : TokenType) (text : String) : Bool :=
  match input with
  | [] => false
  | t :: _ => t.type == type && t.text == text

/-- Value of one character as a digit in the given base (none when it is not
a valid digit), as `strtol` classifies characters. -/
def digit_value (base : Nat) (c : Char) : Option Nat :=
  if c ≥ Char.ofNat 48 && c ≤ Char.ofNat 57 then
    let d := c.toNat - 48
    if d < base then some d else none
  else if base == 16 && c ≥ Char.ofNat 97 && c ≤ Char.ofNat 102 then
    some (c.toNat - 87)
  else if base == 16 && c ≥ Char.ofNat 65 && c ≤ Char.ofNat 70 then
    some (c.toNat - 55)
  else
    none

/-- Accumulate the value of the maximal valid-digit run, as `strtol` does
(conversion stops at the first character that is not a digit of the base). -/
def digits_value (base : Nat) : List Char → Nat → Nat
  | [], acc => acc
  | c :: cs, acc =>
    match digit_value base c with
    | some d => digits_value base cs (acc * base + d)
    | none => acc

/-- Base-16 conversion skips an optional leading 0x or 0X, as `strtol` does. -/
def strtol_cs (base : Nat) (cs : List Char) : List Char :=
  if base == 16 then
    match cs with
    | c0 :: c1 :: rest =>
      if c0 == Char.ofNat 48 && (c1 == Char.ofNat 120 || c1 == Char.ofNat 88) then rest else cs
    | _ => cs
  else cs

/-- Magnitude read by `strtol` from a token text in the given base. -/
def strtol_digits (s : String) (base : Nat) : Nat :=
  digits_value base (strtol_cs base s.data) 0

/-- Embeds C `strtol` on the (unsigned, digit-run) token texts supplied by the
lexer: the converted magnitude, saturated at LONG_MAX = 2^63 - 1 on overflow
of the host 64-bit `long` (the C standard overflow behaviour of `strtol`). -/
def strtol (s : String) (base : Nat) : Int :=
  Int.ofNat (min (strtol_digits s base) 9223372036854775807)

/-- Embeds the C cast `(int) l` of a host `long` value: two's-complement
truncation to 32 bits. -/
def int32_of_long (l : Int) : Int :=
  let m := l % 4294967296
  if m < 2147483648 then m else m - 4294967296

/-- Modelled from the spec: `MAX_ID_LEN`, the identifier-buffer size from the
missing header p2-parser.h; spec section 4.2 gives the token-length limit as a
fixed maximum of 256 bytes. -/
def MAX_ID_LEN : Nat := 256

/-- Embeds `parse_type`: consume one keyword token and map it to a DecafType. -/
def parse_type (input : List Token) : Except Err (DecafType × List Token) :=
  match input with
  | [] => .error (.msg "Unexpected end of input (expected int, bool, or void)\n")
  | token :: rest =>
    if token.type != TokenType.KEY then
      match get_next_token_line rest with
      | .error e => .error e
      | .ok line =>
        .error (.msg ("Invalid type " ++ sq ++ token.text ++ sq ++ " on line " ++ toString line ++ "\n"))
    else if token.text == "int" then .ok (.INT, rest)
    else if token.text == "bool" then .ok (.BOOL, rest)
    else if token.text == "void" then .ok (.VOID, rest)
    else
      match get_next_token_line rest with
      | .error e => .error e
      | .ok line =>
        .error (.msg ("Invalid type " ++ sq ++ token.text ++ sq ++ " on line " ++ toString line ++ "\n"))

/-- Embeds `parse_id`: consume one identifier token and return its text, which
`snprintf` truncates to MAX_ID_LEN - 1 characters. -/
def parse_id (input : List Token) : Except Err (String × List Token) :=
  match input with
  | [] => .error (.msg "Unexpected end of input (expected id token)\n")
  | token :: rest =>
    if token.type != TokenType.ID then
      match get_next_token_line rest with
      | .error e => .error e
      | .ok line =>
        .error (.msg ("Invalid ID " ++ sq ++ token.text ++ sq ++ " on line " ++ toString line ++ "\n"))
    else
      .ok (token.text.take (MAX_ID_LEN - 1), rest)

/-- First index at which `pat` occurs as a contiguous run of `s`, as C
`strstr` locates a substring. -/
def str_find (pat : List Char) : List Char → Option Nat
  | [] => if pat == [] then some 0 else none
  | c :: cs =>
    if pat.isPrefixOf (c :: cs) then some 0
    else
      match str_find pat cs with
      | some i => some (i + 1)
      | none => none

/-- The in-place splice performed on the string buffer after `strstr` finds
the escape at index `i`: the prefix before it, the single resolved escape
character, then the rest of the buffer past the two-character escape form. -/
def esc_sub (p : List Char) (i : Nat) (esc : List Char) : List Char :=
  p.take i ++ esc ++ p.drop (i + 2)

/-- Embeds `parse_lit`: dispatch on the next token.  Decimal and hex literal
texts go through `strtol` (base 10 and 16) and the cast to `int`; the keyword
branch yields `true` for the text "true" and `false` for any other keyword;
every remaining token type is treated as a string literal, whose text loses
its first and last character and then has at most one escape substituted: the
first occurrence of the first form found scanning in the fixed order
backslash-n, backslash-t, double backslash, backslash-quote. -/
def parse_lit (input : List Token) : Except Err (ASTNode × List Token) :=
  match input with
  | [] => .error (.msg "Unexpected end of input (expected DEC, HEX, STR, false, or true)\n")
  | token :: rest =>
    let line := token.line
    if token.type == TokenType.DECLIT then
      .ok (.LiteralInt (int32_of_long (strtol token.text 10)) line, rest)
    else if token.type == TokenType.HEXLIT then
      .ok (.LiteralInt (int32_of_long (strtol token.text 16)) line, rest)
    else if token.type == TokenType.KEY then
      if token.text == "true" then
        .ok (.LiteralBool true line, rest)
      else
        .ok (.LiteralBool false line, rest)
    else
      let p := ((token.text.drop 1).dropRight 1).data
      match str_find ['\\', 'n'] p with
      | some i => .ok (.LiteralStr (String.mk (esc_sub p i ['\n'])) line, rest)
      | none =>
        match str_find ['\\', 't'] p with
        | some i => .ok (.LiteralStr (String.mk (esc_sub p i ['\t'])) line, rest)
        | none =>
          match str_find ['\\', '\\'] p with
          | some i => .ok (.LiteralStr (String.mk (esc_sub p i ['\\'])) line, rest)
          | none =>
            match str_find ['\\', '\"'] p with
            | some i => .ok (.LiteralStr (String.mk (esc_sub p i ['\"'])) line, rest)
            | none => .ok (.LiteralStr (String.mk p) line, rest)

/-- Embeds `parse_vardecl`: Type Identifier, optional bracketed array length
(whose token is removed unchecked, so an empty queue there is a null
dereference), terminating semicolon. -/
def parse_vardecl (input : List Token) : Except Err (ASTNode × List Token) :=
  match input with
  | [] => .error (.msg "Unexpected end of input (expected type)\n")
  | t :: _ =>
    let line := t.line
    pbind (parse_type input) fun ty input =>
    pbind (parse_id input) fun name input =>
    if check_next_token input .SYM "[" then
      qbind (match_and_discard_next_token input .SYM "[") fun input =>
      match input with
      | [] => .error .nullDeref
      | tok :: input =>
        let len := int32_of_long (strtol tok.text 10)
        qbind (match_and_discard_next_token input .SYM "]") fun input =>
        qbind (match_and_discard_next_token input .SYM ";") fun input =>
        .ok (.VarDecl name ty true len line, input)
    else
      qbind (match_and_discard_next_token input .SYM ";") fun input =>
      .ok (.VarDecl name ty false 1 line, input)

/-- Loop of `parse_params`: while the next token is not a closing parenthesis,
expect a comma and parse another Type Identifier pair. -/
def parse_params_loop : Nat → List (String × DecafType) → List Token → Except Err (List (String × DecafType) × List Token)
  | 0, _, _ => .error .fuel
  | fuel + 1, params, input =>
    if check_next_token input .SYM ")" then .ok (params, input)
    else
      qbind (match_and_discard_next_token input .SYM ",") fun input =>
      pbind (parse_type input) fun ty input =>
      pbind (parse_id input) fun name input =>
      parse_params_loop fuel (params ++ [(name, ty)]) input

/-- Embeds `parse_params`: first Type Identifier pair, then, if a comma
follows, further pairs until the closing parenthesis. -/
def parse_params (fuel : Nat) (input : List Token) : Except Err (List (String × DecafType) × List Token) :=
  match input with
  | [] => .error (.msg "Unexpected end of input (expected type)\n")
  | _ :: _ =>
    pbind (parse_type input) fun ty input =>
    pbind (parse_id input) fun name input =>
    if check_next_token input .SYM "," then
      parse_params_loop fuel [(name, ty)] input
    else
      .ok ([(name, ty)], input)

/-- The two-token lookahead `check_next_token_type(input, ID) &&
token_str_eq(input->head->next->text, "(")` shared by `parse_base_expr` and
`parse_statement`: when the head is an identifier the second queue node's
text is read without an emptiness check, a null dereference when no second
token exists. -/
def id_call_lookahead (t : Token) (rest : List Token) : Except Err Bool :=
  if t.type == TokenType.ID then
    match rest with
    | [] => .error .nullDeref
    | t2 :: _ => .ok (t2.text == "(")
  else
    .ok false

mutual

/-- Loop of `parse_args`: while the next token is not a closing parenthesis,
expect a comma and parse another argument expression. -/
def parse_args_loop : Nat → List ASTNode → List Token → Except Err (List ASTNode × List Token)
  | 0, _, _ => .error .fuel
  | fuel + 1, args, input =>
    if check_next_token input .SYM ")" then .ok (args, input)
    else
      qbind (match_and_discard_next_token input .SYM ",") fun input =>
      pbind (parse_expr fuel input) fun e input =>
      parse_args_loop fuel (args ++ [e]) input
termination_by structural a _b _c => a

/-- Embeds `parse_args`: first argument expression, then, if a comma follows,
further arguments until the closing parenthesis. -/
def parse_args : Nat → List Token → Except Err (List ASTNode × List Token)
  | 0, _ => .error .fuel
  | fuel + 1, input =>
    match input with
    | [] => .error (.msg "Unexpected end of input (expected expr)\n")
    | _ :: _ =>
      pbind (parse_expr fuel input) fun e input =>
      if check_next_token input .SYM "," then
        parse_args_loop fuel [e] input
      else
        .ok ([e], input)
termination_by structural a _b => a

/-- Embeds `parse_funccall`: Identifier, parenthesised (possibly empty)
argument list. -/
def parse_funccall : Nat → List Token → Except Err (ASTNode × List Token)
  | 0, _ => .error .fuel
  | fuel + 1, input =>
    match input with
    | [] => .error (.msg "Unexpected end of input (expected ID)\n")
    | t :: _ =>
      let line := t.line
      pbind (parse_id input) fun name input =>
      qbind (match_and_discard_next_token input .SYM "(") fun input =>
      pbind (if check_next_token input .SYM ")" then .ok (([] : List ASTNode), input)
             else parse_args fuel input) fun args input =>
      qbind (match_and_discard_next_token input .SYM ")") fun input =>
      .ok (.FuncCall name args line, input)
termination_by structural a _b => a

/-- Embeds `parse_base_expr`: parenthesised expression, function call
(identifier whose following token is an opening parenthesis, read through the
unchecked two-token lookahead), location, or literal; any other leading token
is removed and reported as an invalid base expression.  The C format string of
the end-of-input message lacks its closing parenthesis and newline; it is
reproduced verbatim. -/
def parse_base_expr : Nat → List Token → Except Err (ASTNode × List Token)
  | 0, _ => .error .fuel
  | fuel + 1, input =>
    match input with
    | [] => .error (.msg "Unexpected end of input (expected another expression, location, function call, or literal")
    | t :: rest =>
      let line := t.line
      if check_next_token input .SYM "(" then
        qbind (match_and_discard_next_token input .SYM "(") fun input =>
        pbind (parse_expr fuel input) fun n input =>
        qbind (match_and_discard_next_token input .SYM ")") fun input =>
        .ok (n, input)
      else
        match id_call_lookahead t rest with
        | .error e => .error e
        | .ok true => parse_funccall fuel input
        | .ok false =>
          if check_next_token_type input .ID then
            parse_loc fuel input
          else if check_next_token_type input .DECLIT || check_next_token_type input .HEXLIT
              || check_next_token_type input .STRLIT || check_next_token input .KEY "true"
              || check_next_token input .KEY "false" then
            parse_lit input
          else
            .error (.msg ("Invalid base expression " ++ sq ++ t.text ++ sq ++ " on line "
              ++ toString line ++ "\n"))
termination_by structural a _b => a

/-- Embeds `parse_neg`: at most one prefix minus or bang before a base
expression. -/
def parse_neg : Nat → List Token → Except Err (ASTNode × List Token)
  | 0, _ => .error .fuel
  | fuel + 1, input =>
    match input with
    | [] => .error (.msg "Unexpected end of input (expected unary operator: - or !)\n")
    | t :: _ =>
      let line := t.line
      if check_next_token input .SYM "-" then
        qbind (match_and_discard_next_token input .SYM "-") fun input =>
        pbind (parse_base_expr fuel input) fun child input =>
        .ok (.UnaryOp .NEGOP child line, input)
      else if check_next_token input .SYM "!" then
        qbind (match_and_discard_next_token input .SYM "!") fun input =>
        pbind (parse_base_expr fuel input) fun child input =>
        .ok (.UnaryOp .NOTOP child line, input)
      else
        parse_base_expr fuel input
termination_by structural a _b => a

/-- Loop of `parse_mult`: fold further star, slash and percent operands onto
the accumulated tree, which becomes the left child of each new node. -/
def parse_mult_loop : Nat → Nat → ASTNode → List Token → Except Err (ASTNode × List Token)
  | 0, _, _, _ => .error .fuel
  | fuel + 1, line, root, input =>
    if check_next_token input .SYM "*" then
      qbind (match_and_discard_next_token input .SYM "*") fun input =>
      pbind (parse_neg fuel input) fun right input =>
      parse_mult_loop fuel line (.BinaryOp .MULOP root right line) input
    else if check_next_token input .SYM "/" then
      qbind (match_and_discard_next_token input .SYM "/") fun input =>
      pbind (parse_neg fuel input) fun right input =>
      parse_mult_loop fuel line (.BinaryOp .DIVOP root right line) input
    else if check_next_token input .SYM "%" then
      qbind (match_and_discard_next_token input .SYM "%") fun input =>
      pbind (parse_neg fuel input) fun right input =>
      parse_mult_loop fuel line (.BinaryOp .MODOP root right line) input
    else
      .ok (root, input)
termination_by structural a _b _c _d => a

/-- Embeds `parse_mult`: left operand through `parse_neg`, then the
multiplicative loop. -/
def parse_mult : Nat → List Token → Except Err (ASTNode × List Token)
  | 0, _ => .error .fuel
  | fuel + 1, input =>
    match input with
    | [] => .error (.msg "Unexpected end of input\n")
    | t :: _ =>
      pbind (parse_neg fuel input) fun root input =>
      parse_mult_loop fuel t.line root input
termination_by structural a _b => a

/-- Loop of `parse_arith`: fold further plus and minus operands onto the
accumulated tree, which becomes the left child of each new node. -/
def parse_arith_loop : Nat → Nat → ASTNode → List Token → Except Err (ASTNode × List Token)
  | 0, _, _, _ => .error .fuel
  | fuel + 1, line, root, input =>
    if check_next_token input .SYM "+" then
      qbind (match_and_discard_next_token input .SYM "+") fun input =>
      pbind (parse_mult fuel input) fun right input =>
      parse_arith_loop fuel line (.BinaryOp .ADDOP root right line) input
    else if check_next_token input .SYM "-" then
      qbind (match_and_discard_next_token input .SYM "-") fun input =>
      pbind (parse_mult fuel input) fun right input =>
      parse_arith_loop fuel line (.BinaryOp .SUBOP root right line) input
    else
      .ok (root, input)
termination_by structural a _b _c _d => a

/-- Embeds `parse_arith`: left operand through `parse_mult`, then the
additive loop. -/
def parse_arith : Nat → List Token → Except Err (ASTNode × List Token)
  | 0, _ => .error .fuel
  | fuel + 1, input =>
    match input with
    | [] => .error (.msg "Unexpected end of input\n")
    | t :: _ =>
      pbind (parse_mult fuel input) fun root input =>
      parse_arith_loop fuel t.line root input
termination_by structural a _b => a

/-- Loop of `parse_relational`: fold further relational operands onto the
accumulated tree. -/
def parse_relational_loop : Nat → Nat → ASTNode → List Token → Except Err (ASTNode × List Token)
  | 0, _, _, _ => .error .fuel
  | fuel + 1, line, root, input =>
    if check_next_token input .SYM "<" then
      qbind (match_and_discard_next_token input .SYM "<") fun input =>
      pbind (parse_arith fuel input) fun right input =>
      parse_relational_loop fuel line (.BinaryOp .LTOP root right line) input
    else if check_next_token input .SYM "<=" then
      qbind (match_and_discard_next_token input .SYM "<=") fun input =>
      pbind (parse_arith fuel input) fun right input =>
      parse_relational_loop fuel line (.BinaryOp .LEOP root right line) input
    else if check_next_token input .SYM ">" then
      qbind (match_and_discard_next_token input .SYM ">") fun input =>
      pbind (parse_arith fuel input) fun right input =>
      parse_relational_loop fuel line (.BinaryOp .GTOP root right line) input
    else if check_next_token input .SYM ">=" then
      qbind (match_and_discard_next_token input .SYM ">=") fun input =>
      pbind (parse_arith fuel input) fun right input =>
      parse_relational_loop fuel line (.BinaryOp .GEOP root right line) input
    else
      .ok (root, input)
termination_by structural a _b _c _d => a

/-- Embeds `parse_relational`. -/
def parse_relational : Nat → List Token → Except Err (ASTNode × List Token)
  | 0, _ => .error .fuel
  | fuel + 1, input =>
    match input with
    | [] => .error (.msg "Unexpected end of input\n")
    | t :: _ =>
      pbind (parse_arith fuel input) fun root input =>
      parse_relational_loop fuel t.line root input
termination_by structural a _b => a

/-- Loop of `parse_equality`: fold further equality operands onto the
accumulated tree. -/
def parse_equality_loop : Nat → Nat → ASTNode → List Token → Except Err (ASTNode × List Token)
  | 0, _, _, _ => .error .fuel
  | fuel + 1, line, root, input =>
    if check_next_token input .SYM "==" then
      qbind (match_and_discard_next_token input .SYM "==") fun input =>
      pbind (parse_relational fuel input) fun right input =>
      parse_equality_loop fuel line (.BinaryOp .EQOP root right line) input
    else if check_next_token input .SYM "!=" then
      qbind (match_and_discard_next_token input .SYM "!=") fun input =>
      pbind (parse_relational fuel input) fun right input =>
      parse_equality_loop fuel line (.BinaryOp .NEQOP root right line) input
    else
      .ok (root, input)
termination_by structural a _b _c _d => a

/-- Embeds `parse_equality`. -/
def parse_equality : Nat → List Token → Except Err (ASTNode × List Token)
  | 0, _ => .error .fuel
  | fuel + 1, input =>
    match input with
    | [] => .error (.msg "Unexpected end of input\n")
    | t :: _ =>
      pbind (parse_relational fuel input) fun root input =>
      parse_equality_loop fuel t.line root input
termination_by structural a _b => a

/-- Loop of `parse_and`. -/
def parse_and_loop : Nat → Nat → ASTNode → List Token → Except Err (ASTNode × List Token)
  | 0, _, _, _ => .error .fuel
  | fuel + 1, line, root, input =>
    if check_next_token input .SYM "&&" then
      qbind (match_and_discard_next_token input .SYM "&&") fun input =>
      pbind (parse_equality fuel input) fun right input =>
      parse_and_loop fuel line (.BinaryOp .ANDOP root right line) input
    else
      .ok (root, input)
termination_by structural a _b _c _d => a

/-- Embeds `parse_and`. -/
def parse_and : Nat → List Token → Except Err (ASTNode × List Token)
  | 0, _ => .error .fuel
  | fuel + 1, input =>
    match input with
    | [] => .error (.msg "Unexpected end of input\n")
    | t :: _ =>
      pbind (parse_equality fuel input) fun root input =>
      parse_and_loop fuel t.line root input
termination_by structural a _b => a

/-- Loop of `parse_or`. -/
def parse_or_loop : Nat → Nat → ASTNode → List Token → Except Err (ASTNode × List Token)
  | 0, _, _, _ => .error .fuel
  | fuel + 1, line, root, input =>
    if check_next_token input .SYM "||" then
      qbind (match_and_discard_next_token input .SYM "||") fun input =>
      pbind (parse_and fuel input) fun right input =>
      parse_or_loop fuel line (.BinaryOp .OROP root right line) input
    else
      .ok (root, input)
termination_by structural a _b _c _d => a

/-- Embeds `parse_or`. -/
def parse_or : Nat → List Token → Except Err (ASTNode × List Token)
  | 0, _ => .error .fuel
  | fuel + 1, input =>
    match input with
    | [] => .error (.msg "Unexpected end of input\n")
    | t :: _ =>
      pbind (parse_and fuel input) fun root input =>
      parse_or_loop fuel t.line root input
termination_by structural a _b => a

/-- Embeds `parse_expr`: the top of the precedence ladder. -/
def parse_expr : Nat → List Token → Except Err (ASTNode × List Token)
  | 0, _ => .error .fuel
  | fuel + 1, input =>
    match input with
    | [] => .error (.msg "Unexpected end of input\n")
    | _ :: _ => parse_or fuel input
termination_by structural a _b => a

/-- Embeds `parse_conditional`: consume the keyword, expect an opening
parenthesis, parse the condition, expect the closing parenthesis, parse the
then-branch with `parse_block`; when the next token is the keyword else,
consume it and parse the else-branch — the C code calls `parse_expr` there,
although its own comments state the grammar alternative is a Block. -/
def parse_conditional : Nat → List Token → Except Err (ASTNode × List Token)
  | 0, _ => .error .fuel
  | fuel + 1, input =>
    match input with
    | [] => .error (.msg "Conditional expected but not found at line 1\n")
    | t :: afterKw =>
      let line := t.line
      qbind (match_and_discard_next_token afterKw .SYM "(") fun input =>
      pbind (parse_expr fuel input) fun condition input =>
      qbind (match_and_discard_next_token input .SYM ")") fun input =>
      pbind (parse_block fuel input) fun if_block input =>
      if check_next_token input .KEY "else" then
        qbind (match_and_discard_next_token input .KEY "else") fun input =>
        pbind (parse_expr fuel input) fun else_block input =>
        .ok (.Conditional condition if_block (some else_block) line, input)
      else
        .ok (.Conditional condition if_block none line, input)
termination_by structural a _b => a

/-- Embeds `parse_loc`: Identifier with an optional bracketed index
expression. -/
def parse_loc : Nat → List Token → Except Err (ASTNode × List Token)
  | 0, _ => .error .fuel
  | fuel + 1, input =>
    match input with
    | [] => .error (.msg "Location expected but not found at line 1\n")
    | t :: _ =>
      let line := t.line
      pbind (parse_id input) fun name input =>
      if check_next_token input .SYM "[" then
        qbind (match_and_discard_next_token input .SYM "[") fun input =>
        pbind (parse_expr fuel input) fun index input =>
        qbind (match_and_discard_next_token input .SYM "]") fun input =>
        .ok (.Location name (some index) line, input)
      else
        .ok (.Location name none line, input)
termination_by structural a _b => a

/-- Embeds `parse_while`: consume the keyword, parenthesised condition, body
Block. -/
def parse_while : Nat → List Token → Except Err (ASTNode × List Token)
  | 0, _ => .error .fuel
  | fuel + 1, input =>
    match input with
    | [] => .error (.msg "While loop expected but not found at line 1\n")
    | t :: afterKw =>
      let line := t.line
      qbind (match_and_discard_next_token afterKw .SYM "(") fun input =>
      pbind (parse_expr fuel input) fun cond input =>
      qbind (match_and_discard_next_token input .SYM ")") fun input =>
      pbind (parse_block fuel input) fun body input =>
      .ok (.WhileLoop cond body line, input)
termination_by structural a _b => a

/-- Embeds `parse_statement`: dispatch on the leading token — break,
continue, return (with optional value), while, if, call statement (through
the unchecked two-token lookahead), assignment, otherwise an invalid
statement. -/
def parse_statement : Nat → List Token → Except Err (ASTNode × List Token)
  | 0, _ => .error .fuel
  | fuel + 1, input =>
    match input with
    | [] => .error (.msg "Unexpected end of input\n")
    | t :: rest =>
      let line := t.line
      if check_next_token input .KEY "break" then
        qbind (match_and_discard_next_token rest .SYM ";") fun input =>
        .ok (.Break line, input)
      else if check_next_token input .KEY "continue" then
        qbind (match_and_discard_next_token rest .SYM ";") fun input =>
        .ok (.Continue line, input)
      else if check_next_token input .KEY "return" then
        if check_next_token rest .SYM ";" then
          qbind (match_and_discard_next_token rest .SYM ";") fun input =>
          .ok (.Return none line, input)
        else
          pbind (parse_expr fuel rest) fun val input =>
          qbind (match_and_discard_next_token input .SYM ";") fun input =>
          .ok (.Return (some val) line, input)
      else if check_next_token input .KEY "while" then
        parse_while fuel input
      else if check_next_token input .KEY "if" then
        parse_conditional fuel input
      else
        match id_call_lookahead t rest with
        | .error e => .error e
        | .ok true =>
          pbind (parse_funccall fuel input) fun n input =>
          qbind (match_and_discard_next_token input .SYM ";") fun input =>
          .ok (n, input)
        | .ok false =>
          if check_next_token_type input .ID then
            pbind (parse_loc fuel input) fun loc input =>
            qbind (match_and_discard_next_token input .SYM "=") fun input =>
            pbind (parse_expr fuel input) fun value input =>
            qbind (match_and_discard_next_token input .SYM ";") fun input =>
            .ok (.Assignment loc value line, input)
          else
            .error (.msg ("Invalid statement on line " ++ toString line ++ "\n"))
termination_by structural a _b => a

/-- Loop of `parse_block`: until the closing brace, a type keyword starts a
local VarDecl (appended to the locals) and anything else is parsed as a
statement (appended to the statements). -/
def parse_block_loop : Nat → List ASTNode → List ASTNode → List Token → Except Err ((List ASTNode × List ASTNode) × List Token)
  | 0, _, _, _ => .error .fuel
  | fuel + 1, vars, stmts, input =>
    if check_next_token input .SYM "\x7d" then .ok ((vars, stmts), input)
    else if check_next_token input .KEY "int" || check_next_token input .KEY "bool"
        || check_next_token input .KEY "void" then
      pbind (parse_vardecl input) fun v input =>
      parse_block_loop fuel (vars ++ [v]) stmts input
    else
      pbind (parse_statement fuel input) fun s input =>
      parse_block_loop fuel vars (stmts ++ [s]) input
termination_by structural a _b _c _d => a

/-- Embeds `parse_block`: opening brace, early return on an immediately
closing brace, otherwise the body loop followed by the closing brace. -/
def parse_block : Nat → List Token → Except Err (ASTNode × List Token)
  | 0, _ => .error .fuel
  | fuel + 1, input =>
    match input with
    | [] => .error (.msg ("Unexpected end of input (expected " ++ sq ++ "\x7b" ++ sq ++ ")\n"))
    | t :: _ =>
      let line := t.line
      qbind (match_and_discard_next_token input .SYM "\x7b") fun input =>
      if check_next_token input .SYM "\x7d" then
        qbind (match_and_discard_next_token input .SYM "\x7d") fun input =>
        .ok (.Block [] [] line, input)
      else
        pbind (parse_block_loop fuel [] [] input) fun vs input =>
        qbind (match_and_discard_next_token input .SYM "\x7d") fun input =>
        .ok (.Block vs.1 vs.2 line, input)
termination_by structural a _b => a

/-- Embeds `parse_funcdecl`: keyword def, return Type, Identifier,
parenthesised (possibly empty) parameter list, body Block. -/
def parse_funcdecl : Nat → List Token → Except Err (ASTNode × List Token)
  | 0, _ => .error .fuel
  | fuel + 1, input =>
    match input with
    | [] => .error (.msg ("Unexpected end of input (expected " ++ sq ++ "def" ++ sq ++ ")\n"))
    | t :: _ =>
      let line := t.line
      qbind (match_and_discard_next_token input .KEY "def") fun input =>
      pbind (parse_type input) fun ty input =>
      pbind (parse_id input) fun name input =>
      qbind (match_and_discard_next_token input .SYM "(") fun input =>
      pbind (if check_next_token input .SYM ")" then .ok (([] : List (String × DecafType)), input)
             else parse_params fuel input) fun params input =>
      qbind (match_and_discard_next_token input .SYM ")") fun input =>
      pbind (parse_block fuel input) fun body input =>
      .ok (.FuncDecl name ty params body line, input)

/-- Loop of `parse_program`: while the queue is not empty, a leading def
keyword starts a FuncDecl (appended to the function list) and anything else a
global VarDecl (appended to the variable list). -/
def parse_program_loop : Nat → List ASTNode → List ASTNode → List Token → Except Err (ASTNode × List Token)
  | 0, _, _, _ => .error .fuel
  | fuel + 1, vars, funcs, input =>
    match input with
    | [] => .ok (.Program vars funcs, [])
    | _ :: _ =>
      if check_next_token input .KEY "def" then
        pbind (parse_funcdecl fuel input) fun n input =>
        parse_program_loop fuel vars (funcs ++ [n]) input
      else
        pbind (parse_vardecl input) fun n input =>
        parse_program_loop fuel (vars ++ [n]) funcs input
termination_by structural a _b _c _d => a

end

/-- Embeds `parse_program`: the top-level declaration loop started with empty
global and function lists. -/
def parse_program (fuel : Nat) (input : List Token) : Except Err (ASTNode × List Token) :=
  parse_program_loop fuel [] [] input

/-- Embeds `parse`: the entry point simply runs `parse_program` (the C null
check on the queue pointer has no counterpart for a Lean list). -/
def parse (fuel : Nat) (input : List Token) : Except Err (ASTNode × List Token) :=
  parse_program fuel input

/-- The overflow behaviour the specification describes for literal
conversion: the token value reduced modulo 2^32 and read as a signed 32-bit
two's-complement integer. -/
def int32_wrap (v : Nat) : Int :=
  if v % 4294967296 < 2147483648 then Int.ofNat (v % 4294967296)
  else Int.ofNat (v % 4294967296) - 4294967296

/-- An operator token of a chain: symbol text with its line. -/
def op_tok (p : String × Nat) : Token := ⟨.SYM, p.1, p.2⟩

/-- A decimal-literal token of a chain: digit text with its line. -/
def lit_tok (p : String × Nat) : Token := ⟨.DECLIT, p.1, p.2⟩

/-- The node parse_lit builds for a decimal-literal token. -/
def lit_node (p : String × Nat) : ASTNode :=
  .LiteralInt (int32_of_long (strtol p.1 10)) p.2

/-- The BinaryOpType each operator text maps to. -/
def sym_op (s : String) : BinOp :=
  if s = "||" then .OROP else if s = "&&" then .ANDOP else if s = "==" then .EQOP
  else if s = "!=" then .NEQOP else if s = "<" then .LTOP else if s = "<=" then .LEOP
  else if s = ">" then .GTOP else if s = ">=" then .GEOP else if s = "+" then .ADDOP
  else if s = "-" then .SUBOP else if s = "*" then .MULOP else if s = "/" then .DIVOP
  else .MODOP

/-- Tokens of the tail of an operator chain: operator, literal, operator,
literal, and so on. -/
def chain_tail_toks : List ((String × Nat) × (String × Nat)) → List Token
  | [] => []
  | q :: qs => op_tok q.1 :: lit_tok q.2 :: chain_tail_toks qs

/-- Tokens of a whole operand chain: the first literal then the tail. -/
def chain_toks (t0 : String × Nat) (ps : List ((String × Nat) × (String × Nat))) : List Token :=
  lit_tok t0 :: chain_tail_toks ps

/-- The left-leaning tree the left-to-right fold builds: the accumulated
tree becomes the left operand of each next operator, every node carrying the
line captured at the start of the level. -/
def chain_fold (line : Nat) (root : ASTNode) : List ((String × Nat) × (String × Nat)) → ASTNode
  | [] => root
  | q :: qs => chain_fold line (.BinaryOp (sym_op q.1.1) root (lit_node q.2) line) qs

theorem int32_cast_eq_wrap (v : Nat) : int32_of_long (Int.ofNat v) = int32_wrap v := by
  have h1 : (Int.ofNat v) % 4294967296 = Int.ofNat (v % 4294967296) := rfl
  have h2 : Int.ofNat (v % 4294967296) = ((v % 4294967296 : Nat) : Int) := rfl
  simp only [int32_of_long, int32_wrap, h1, h2]
  split_ifs with ha hb hc <;> first
    | rfl
    | (exfalso; omega)

theorem parse_program_loop_rest_nil (fuel : Nat) :
    ∀ (vars funcs : List ASTNode) (input : List Token) (p : ASTNode) (rest : List Token),
      parse_program_loop fuel vars funcs input = .ok (p, rest) → rest = [] := by
  induction fuel with
  | zero =>
    intro vars funcs input p rest h
    simp [parse_program_loop] at h
  | succ n ih =>
    intro vars funcs input p rest h
    cases input with
    | nil =>
      simp [parse_program_loop] at h
      exact h.2
    | cons t ts =>
      simp only [parse_program_loop] at h
      split at h <;> (unfold pbind at h; split at h) <;>
        first
          | exact ih _ _ _ _ _ h
          | simp at h

set_option maxRecDepth 40000

theorem chain_tail_toks_shape (P : String → Prop) (ps : List ((String × Nat) × (String × Nat)))
    (hops : ∀ p ∈ ps, P p.1.1) :
    chain_tail_toks ps = [] ∨ ∃ o l tl, chain_tail_toks ps = op_tok (o, l) :: tl ∧ P o := by
  cases ps with
  | nil => exact Or.inl rfl
  | cons q qs =>
    refine Or.inr ⟨q.1.1, q.1.2, lit_tok q.2 :: chain_tail_toks qs, ?_, hops _ (List.mem_cons_self _ _)⟩
    simp [chain_tail_toks, op_tok]

/-- A literal operand through parse_neg: one unary-level descent to the
literal, leaving the tail untouched (parse_neg never inspects the tail). -/
theorem parse_neg_lit (g : Nat) (a : String) (la : Nat) (ts : List Token) :
    parse_neg (g + 2) (lit_tok (a, la) :: ts) = .ok (lit_node (a, la), ts) := rfl

/-- A literal operand through parse_mult: every loop below the arith
level declines a following arith-level operator (or an empty tail), so the
operand parse returns the bare literal with the tail untouched. -/
theorem parse_mult_lit (g : Nat) (a : String) (la : Nat) (ts : List Token)
    (h : ts = [] ∨ ∃ o l tl, ts = op_tok (o, l) :: tl ∧ (o = "+" ∨ o = "-")) :
    parse_mult (g + 3) (lit_tok (a, la) :: ts) = .ok (lit_node (a, la), ts) := by
  rcases h with rfl | ⟨o, l, tl, rfl, rfl | rfl⟩ <;> rfl

/-- A literal operand through parse_arith: every loop below the relational
level declines a following relational-level operator (or an empty tail), so the
operand parse returns the bare literal with the tail untouched. -/
theorem parse_arith_lit (g : Nat) (a : String) (la : Nat) (ts : List Token)
    (h : ts = [] ∨ ∃ o l tl, ts = op_tok (o, l) :: tl ∧ (o = "<" ∨ o = "<=" ∨ o = ">" ∨ o = ">=")) :
    parse_arith (g + 4) (lit_tok (a, la) :: ts) = .ok (lit_node (a, la), ts) := by
  rcases h with rfl | ⟨o, l, tl, rfl, rfl | rfl | rfl | rfl⟩ <;> rfl

/-- A literal operand through parse_relational: every loop below the equality
level declines a following equality-level operator (or an empty tail), so the
operand parse returns the bare literal with the tail untouched. -/
theorem parse_relational_lit (g : Nat) (a : String) (la : Nat) (ts : List Token)
    (h : ts = [] ∨ ∃ o l tl, ts = op_tok (o, l) :: tl ∧ (o = "==" ∨ o = "!=")) :
    parse_relational (g + 5) (lit_tok (a, la) :: ts) = .ok (lit_node (a, la), ts) := by
  rcases h with rfl | ⟨o, l, tl, rfl, rfl | rfl⟩ <;> rfl

/-- A literal operand through parse_equality: every loop below the and
level declines a following and-level operator (or an empty tail), so the
operand parse returns the bare literal with the tail untouched. -/
theorem parse_equality_lit (g : Nat) (a : String) (la : Nat) (ts : List Token)
    (h : ts = [] ∨ ∃ o l tl, ts = op_tok (o, l) :: tl ∧ (o = "&&")) :
    parse_equality (g + 6) (lit_tok (a, la) :: ts) = .ok (lit_node (a, la), ts) := by
  rcases h with rfl | ⟨o, l, tl, rfl, rfl⟩ <;> rfl

/-- A literal operand through parse_and: every loop below the or
level declines a following or-level operator (or an empty tail), so the
operand parse returns the bare literal with the tail untouched. -/
theorem parse_and_lit (g : Nat) (a : String) (la : Nat) (ts : List Token)
    (h : ts = [] ∨ ∃ o l tl, ts = op_tok (o, l) :: tl ∧ (o = "||")) :
    parse_and (g + 7) (lit_tok (a, la) :: ts) = .ok (lit_node (a, la), ts) := by
  rcases h with rfl | ⟨o, l, tl, rfl, rfl⟩ <;> rfl

/-- The mult-level loop folds a whole operator chain left-to-right: the
accumulated tree becomes the left operand of each next operator. -/
theorem parse_mult_loop_fold (ps : List ((String × Nat) × (String × Nat))) :
    ∀ (f line : Nat) (root : ASTNode),
      (∀ p ∈ ps, p.1.1 = "*" ∨ p.1.1 = "/" ∨ p.1.1 = "%") →
      parse_mult_loop (f + ps.length + 2) line root (chain_tail_toks ps)
        = .ok (chain_fold line root ps, []) := by
  induction ps with
  | nil =>
    intro f line root _
    rfl
  | cons q qs ih =>
    intro f line root hops
    obtain ⟨⟨o, lo⟩, b, lb⟩ := q
    have ho := hops ((o, lo), b, lb) (List.mem_cons_self _ _)
    have htail : ∀ p ∈ qs, p.1.1 = "*" ∨ p.1.1 = "/" ∨ p.1.1 = "%" := fun p hp => hops p (List.mem_cons_of_mem _ hp)
    simp only [List.length_cons, chain_tail_toks, chain_fold]
    rcases ho with rfl | rfl | rfl
    · have hs : parse_mult_loop (f + (qs.length + 1) + 2) line root
          (op_tok ("*", lo) :: lit_tok (b, lb) :: chain_tail_toks qs)
          = pbind (parse_neg (f + qs.length + 2) (lit_tok (b, lb) :: chain_tail_toks qs))
              (fun right input => parse_mult_loop (f + qs.length + 2) line (.BinaryOp .MULOP root right line) input) := rfl
      rw [hs, parse_neg_lit (f + qs.length) b lb (chain_tail_toks qs)]
      exact ih f line _ htail
    · have hs : parse_mult_loop (f + (qs.length + 1) + 2) line root
          (op_tok ("/", lo) :: lit_tok (b, lb) :: chain_tail_toks qs)
          = pbind (parse_neg (f + qs.length + 2) (lit_tok (b, lb) :: chain_tail_toks qs))
              (fun right input => parse_mult_loop (f + qs.length + 2) line (.BinaryOp .DIVOP root right line) input) := rfl
      rw [hs, parse_neg_lit (f + qs.length) b lb (chain_tail_toks qs)]
      exact ih f line _ htail
    · have hs : parse_mult_loop (f + (qs.length + 1) + 2) line root
          (op_tok ("%", lo) :: lit_tok (b, lb) :: chain_tail_toks qs)
          = pbind (parse_neg (f + qs.length + 2) (lit_tok (b, lb) :: chain_tail_toks qs))
              (fun right input => parse_mult_loop (f + qs.length + 2) line (.BinaryOp .MODOP root right line) input) := rfl
      rw [hs, parse_neg_lit (f + qs.length) b lb (chain_tail_toks qs)]
      exact ih f line _ htail

/-- The arith-level loop folds a whole operator chain left-to-right: the
accumulated tree becomes the left operand of each next operator. -/
theorem parse_arith_loop_fold (ps : List ((String × Nat) × (String × Nat))) :
    ∀ (f line : Nat) (root : ASTNode),
      (∀ p ∈ ps, p.1.1 = "+" ∨ p.1.1 = "-") →
      parse_arith_loop (f + ps.length + 3) line root (chain_tail_toks ps)
        = .ok (chain_fold line root ps, []) := by
  induction ps with
  | nil =>
    intro f line root _
    rfl
  | cons q qs ih =>
    intro f line root hops
    obtain ⟨⟨o, lo⟩, b, lb⟩ := q
    have ho := hops ((o, lo), b, lb) (List.mem_cons_self _ _)
    have htail : ∀ p ∈ qs, p.1.1 = "+" ∨ p.1.1 = "-" := fun p hp => hops p (List.mem_cons_of_mem _ hp)
    simp only [List.length_cons, chain_tail_toks, chain_fold]
    rcases ho with rfl | rfl
    · have hs : parse_arith_loop (f + (qs.length + 1) + 3) line root
          (op_tok ("+", lo) :: lit_tok (b, lb) :: chain_tail_toks qs)
          = pbind (parse_mult (f + qs.length + 3) (lit_tok (b, lb) :: chain_tail_toks qs))
              (fun right input => parse_arith_loop (f + qs.length + 3) line (.BinaryOp .ADDOP root right line) input) := rfl
      rw [hs, parse_mult_lit _ _ _ _ (chain_tail_toks_shape _ qs htail)]
      exact ih f line _ htail
    · have hs : parse_arith_loop (f + (qs.length + 1) + 3) line root
          (op_tok ("-", lo) :: lit_tok (b, lb) :: chain_tail_toks qs)
          = pbind (parse_mult (f + qs.length + 3) (lit_tok (b, lb) :: chain_tail_toks qs))
              (fun right input => parse_arith_loop (f + qs.length + 3) line (.BinaryOp .SUBOP root right line) input) := rfl
      rw [hs, parse_mult_lit _ _ _ _ (chain_tail_toks_shape _ qs htail)]
      exact ih f line _ htail

/-- The relational-level loop folds a whole operator chain left-to-right: the
accumulated tree becomes the left operand of each next operator. -/
theorem parse_relational_loop_fold (ps : List ((String × Nat) × (String × Nat))) :
    ∀ (f line : Nat) (root : ASTNode),
      (∀ p ∈ ps, p.1.1 = "<" ∨ p.1.1 = "<=" ∨ p.1.1 = ">" ∨ p.1.1 = ">=") →
      parse_relational_loop (f + ps.length + 4) line root (chain_tail_toks ps)
        = .ok (chain_fold line root ps, []) := by
  induction ps with
  | nil =>
    intro f line root _
    rfl
  | cons q qs ih =>
    intro f line root hops
    obtain ⟨⟨o, lo⟩, b, lb⟩ := q
    have ho := hops ((o, lo), b, lb) (List.mem_cons_self _ _)
    have htail : ∀ p ∈ qs, p.1.1 = "<" ∨ p.1.1 = "<=" ∨ p.1.1 = ">" ∨ p.1.1 = ">=" := fun p hp => hops p (List.mem_cons_of_mem _ hp)
    simp only [List.length_cons, chain_tail_toks, chain_fold]
    rcases ho with rfl | rfl | rfl | rfl
    · have hs : parse_relational_loop (f + (qs.length + 1) + 4) line root
          (op_tok ("<", lo) :: lit_tok (b, lb) :: chain_tail_toks qs)
          = pbind (parse_arith (f + qs.length + 4) (lit_tok (b, lb) :: chain_tail_toks qs))
              (fun right input => parse_relational_loop (f + qs.length + 4) line (.BinaryOp .LTOP root right line) input) := rfl
      rw [hs, parse_arith_lit _ _ _ _ (chain_tail_toks_shape _ qs htail)]
      exact ih f line _ htail
    · have hs : parse_relational_loop (f + (qs.length + 1) + 4) line root
          (op_tok ("<=", lo) :: lit_tok (b, lb) :: chain_tail_toks qs)
          = pbind (parse_arith (f + qs.length + 4) (lit_tok (b, lb) :: chain_tail_toks qs))
              (fun right input => parse_relational_loop (f + qs.length + 4) line (.BinaryOp .LEOP root right line) input) := rfl
      rw [hs, parse_arith_lit _ _ _ _ (chain_tail_toks_shape _ qs htail)]
      exact ih f line _ htail
    · have hs : parse_relational_loop (f + (qs.length + 1) + 4) line root
          (op_tok (">", lo) :: lit_tok (b, lb) :: chain_tail_toks qs)
          = pbind (parse_arith (f + qs.length + 4) (lit_tok (b, lb) :: chain_tail_toks qs))
              (fun right input => parse_relational_loop (f + qs.length + 4) line (.BinaryOp .GTOP root right line) input) := rfl
      rw [hs, parse_arith_lit _ _ _ _ (chain_tail_toks_shape _ qs htail)]
      exact ih f line _ htail
    · have hs : parse_relational_loop (f + (qs.length + 1) + 4) line root
          (op_tok (">=", lo) :: lit_tok (b, lb) :: chain_tail_toks qs)
          = pbind (parse_arith (f + qs.length + 4) (lit_tok (b, lb) :: chain_tail_toks qs))
              (fun right input => parse_relational_loop (f + qs.length + 4) line (.BinaryOp .GEOP root right line) input) := rfl
      rw [hs, parse_arith_lit _ _ _ _ (chain_tail_toks_shape _ qs htail)]
      exact ih f line _ htail

/-- The equality-level loop folds a whole operator chain left-to-right: the
accumulated tree becomes the left operand of each next operator. -/
theorem parse_equality_loop_fold (ps : List ((String × Nat) × (String × Nat))) :
    ∀ (f line : Nat) (root : ASTNode),
      (∀ p ∈ ps, p.1.1 = "==" ∨ p.1.1 = "!=") →
      parse_equality_loop (f + ps.length + 5) line root (chain_tail_toks ps)
        = .ok (chain_fold line root ps, []) := by
  induction ps with
  | nil =>
    intro f line root _
    rfl
  | cons q qs ih =>
    intro f line root hops
    obtain ⟨⟨o, lo⟩, b, lb⟩ := q
    have ho := hops ((o, lo), b, lb) (List.mem_cons_self _ _)
    have htail : ∀ p ∈ qs, p.1.1 = "==" ∨ p.1.1 = "!=" := fun p hp => hops p (List.mem_cons_of_mem _ hp)
    simp only [List.length_cons, chain_tail_toks, chain_fold]
    rcases ho with rfl | rfl
    · have hs : parse_equality_loop (f + (qs.length + 1) + 5) line root
          (op_tok ("==", lo) :: lit_tok (b, lb) :: chain_tail_toks qs)
          = pbind (parse_relational (f + qs.length + 5) (lit_tok (b, lb) :: chain_tail_toks qs))
              (fun right input => parse_equality_loop (f + qs.length + 5) line (.BinaryOp .EQOP root right line) input) := rfl
      rw [hs, parse_relational_lit _ _ _ _ (chain_tail_toks_shape _ qs htail)]
      exact ih f line _ htail
    · have hs : parse_equality_loop (f + (qs.length + 1) + 5) line root
          (op_tok ("!=", lo) :: lit_tok (b, lb) :: chain_tail_toks qs)
          = pbind (parse_relational (f + qs.length + 5) (lit_tok (b, lb) :: chain_tail_toks qs))
              (fun right input => parse_equality_loop (f + qs.length + 5) line (.BinaryOp .NEQOP root right line) input) := rfl
      rw [hs, parse_relational_lit _ _ _ _ (chain_tail_toks_shape _ qs htail)]
      exact ih f line _ htail

/-- The and-level loop folds a whole operator chain left-to-right: the
accumulated tree becomes the left operand of each next operator. -/
theorem parse_and_loop_fold (ps : List ((String × Nat) × (String × Nat))) :
    ∀ (f line : Nat) (root : ASTNode),
      (∀ p ∈ ps, p.1.1 = "&&") →
      parse_and_loop (f + ps.length + 6) line root (chain_tail_toks ps)
        = .ok (chain_fold line root ps, []) := by
  induction ps with
  | nil =>
    intro f line root _
    rfl
  | cons q qs ih =>
    intro f line root hops
    obtain ⟨⟨o, lo⟩, b, lb⟩ := q
    have ho := hops ((o, lo), b, lb) (List.mem_cons_self _ _)
    have htail : ∀ p ∈ qs, p.1.1 = "&&" := fun p hp => hops p (List.mem_cons_of_mem _ hp)
    simp only [List.length_cons, chain_tail_toks, chain_fold]
    rcases ho with rfl
    · have hs : parse_and_loop (f + (qs.length + 1) + 6) line root
          (op_tok ("&&", lo) :: lit_tok (b, lb) :: chain_tail_toks qs)
          = pbind (parse_equality (f + qs.length + 6) (lit_tok (b, lb) :: chain_tail_toks qs))
              (fun right input => parse_and_loop (f + qs.length + 6) line (.BinaryOp .ANDOP root right line) input) := rfl
      rw [hs, parse_equality_lit _ _ _ _ (chain_tail_toks_shape _ qs htail)]
      exact ih f line _ htail

/-- The or-level loop folds a whole operator chain left-to-right: the
accumulated tree becomes the left operand of each next operator. -/
theorem parse_or_loop_fold (ps : List ((String × Nat) × (String × Nat))) :
    ∀ (f line : Nat) (root : ASTNode),
      (∀ p ∈ ps, p.1.1 = "||") →
      parse_or_loop (f + ps.length + 7) line root (chain_tail_toks ps)
        = .ok (chain_fold line root ps, []) := by
  induction ps with
  | nil =>
    intro f line root _
    rfl
  | cons q qs ih =>
    intro f line root hops
    obtain ⟨⟨o, lo⟩, b, lb⟩ := q
    have ho := hops ((o, lo), b, lb) (List.mem_cons_self _ _)
    have htail : ∀ p ∈ qs, p.1.1 = "||" := fun p hp => hops p (List.mem_cons_of_mem _ hp)
    simp only [List.length_cons, chain_tail_toks, chain_fold]
    rcases ho with rfl
    · have hs : parse_or_loop (f + (qs.length + 1) + 7) line root
          (op_tok ("||", lo) :: lit_tok (b, lb) :: chain_tail_toks qs)
          = pbind (parse_and (f + qs.length + 7) (lit_tok (b, lb) :: chain_tail_toks qs))
              (fun right input => parse_or_loop (f + qs.length + 7) line (.BinaryOp .OROP root right line) input) := rfl
      rw [hs, parse_and_lit _ _ _ _ (chain_tail_toks_shape _ qs htail)]
      exact ih f line _ htail

/-- A whole mult-level operator chain through parse_mult: first operand,
then the left fold of the loop. -/
theorem parse_mult_chain (a : String) (la f : Nat) (ps : List ((String × Nat) × (String × Nat)))
    (hops : ∀ p ∈ ps, p.1.1 = "*" ∨ p.1.1 = "/" ∨ p.1.1 = "%") :
    parse_mult (f + ps.length + 3) (chain_toks (a, la) ps)
      = .ok (chain_fold la (lit_node (a, la)) ps, []) := by
  have h1 : parse_mult (f + ps.length + 3) (chain_toks (a, la) ps)
      = pbind (parse_neg (f + ps.length + 2) (lit_tok (a, la) :: chain_tail_toks ps))
          (fun root input => parse_mult_loop (f + ps.length + 2) la root input) := rfl
  rw [h1, parse_neg_lit (f + ps.length) a la (chain_tail_toks ps)]
  exact parse_mult_loop_fold ps f la (lit_node (a, la)) hops

/-- A whole arith-level operator chain through parse_arith: first operand,
then the left fold of the loop. -/
theorem parse_arith_chain (a : String) (la f : Nat) (ps : List ((String × Nat) × (String × Nat)))
    (hops : ∀ p ∈ ps, p.1.1 = "+" ∨ p.1.1 = "-") :
    parse_arith (f + ps.length + 4) (chain_toks (a, la) ps)
      = .ok (chain_fold la (lit_node (a, la)) ps, []) := by
  have h1 : parse_arith (f + ps.length + 4) (chain_toks (a, la) ps)
      = pbind (parse_mult (f + ps.length + 3) (lit_tok (a, la) :: chain_tail_toks ps))
          (fun root input => parse_arith_loop (f + ps.length + 3) la root input) := rfl
  rw [h1, parse_mult_lit _ _ _ _ (chain_tail_toks_shape _ ps hops)]
  exact parse_arith_loop_fold ps f la (lit_node (a, la)) hops

/-- A whole relational-level operator chain through parse_relational: first operand,
then the left fold of the loop. -/
theorem parse_relational_chain (a : String) (la f : Nat) (ps : List ((String × Nat) × (String × Nat)))
    (hops : ∀ p ∈ ps, p.1.1 = "<" ∨ p.1.1 = "<=" ∨ p.1.1 = ">" ∨ p.1.1 = ">=") :
    parse_relational (f + ps.length + 5) (chain_toks (a, la) ps)
      = .ok (chain_fold la (lit_node (a, la)) ps, []) := by
  have h1 : parse_relational (f + ps.length + 5) (chain_toks (a, la) ps)
      = pbind (parse_arith (f + ps.length + 4) (lit_tok (a, la) :: chain_tail_toks ps))
          (fun root input => parse_relational_loop (f + ps.length + 4) la root input) := rfl
  rw [h1, parse_arith_lit _ _ _ _ (chain_tail_toks_shape _ ps hops)]
  exact parse_relational_loop_fold ps f la (lit_node (a, la)) hops

/-- A whole equality-level operator chain through parse_equality: first operand,
then the left fold of the loop. -/
theorem parse_equality_chain (a : String) (la f : Nat) (ps : List ((String × Nat) × (String × Nat)))
    (hops : ∀ p ∈ ps, p.1.1 = "==" ∨ p.1.1 = "!=") :
    parse_equality (f + ps.length + 6) (chain_toks (a, la) ps)
      = .ok (chain_fold la (lit_node (a, la)) ps, []) := by
  have h1 : parse_equality (f + ps.length + 6) (chain_toks (a, la) ps)
      = pbind (parse_relational (f + ps.length + 5) (lit_tok (a, la) :: chain_tail_toks ps))
          (fun root input => parse_equality_loop (f + ps.length + 5) la root input) := rfl
  rw [h1, parse_relational_lit _ _ _ _ (chain_tail_toks_shape _ ps hops)]
  exact parse_equality_loop_fold ps f la (lit_node (a, la)) hops

/-- A whole and-level operator chain through parse_and: first operand,
then the left fold of the loop. -/
theorem parse_and_chain (a : String) (la f : Nat) (ps : List ((String × Nat) × (String × Nat)))
    (hops : ∀ p ∈ ps, p.1.1 = "&&") :
    parse_and (f + ps.length + 7) (chain_toks (a, la) ps)
      = .ok (chain_fold la (lit_node (a, la)) ps, []) := by
  have h1 : parse_and (f + ps.length + 7) (chain_toks (a, la) ps)
      = pbind (parse_equality (f + ps.length + 6) (lit_tok (a, la) :: chain_tail_toks ps))
          (fun root input => parse_and_loop (f + ps.length + 6) la root input) := rfl
  rw [h1, parse_equality_lit _ _ _ _ (chain_tail_toks_shape _ ps hops)]
  exact parse_and_loop_fold ps f la (lit_node (a, la)) hops

/-- A whole or-level operator chain through parse_or: first operand,
then the left fold of the loop. -/
theorem parse_or_chain (a : String) (la f : Nat) (ps : List ((String × Nat) × (String × Nat)))
    (hops : ∀ p ∈ ps, p.1.1 = "||") :
    parse_or (f + ps.length + 8) (chain_toks (a, la) ps)
      = .ok (chain_fold la (lit_node (a, la)) ps, []) := by
  have h1 : parse_or (f + ps.length + 8) (chain_toks (a, la) ps)
      = pbind (parse_and (f + ps.length + 7) (lit_tok (a, la) :: chain_tail_toks ps))
          (fun root input => parse_or_loop (f + ps.length + 7) la root input) := rfl
  rw [h1, parse_and_lit _ _ _ _ (chain_tail_toks_shape _ ps hops)]
  exact parse_or_loop_fold ps f la (lit_node (a, la)) hops

/-- A fully parsed sub-expression passes unchanged through the arith
level: its loop sees the exhausted queue and returns the tree as is. -/
theorem parse_arith_wrap (Y : Nat) (t : Token) (ts : List Token) (tree : ASTNode)
    (h : parse_mult (Y + 1) (t :: ts) = .ok (tree, [])) :
    parse_arith (Y + 2) (t :: ts) = .ok (tree, []) := by
  have h1 : parse_arith (Y + 2) (t :: ts)
      = pbind (parse_mult (Y + 1) (t :: ts))
          (fun root input => parse_arith_loop (Y + 1) t.line root input) := rfl
  rw [h1, h]
  rfl

/-- A fully parsed sub-expression passes unchanged through the relational
level: its loop sees the exhausted queue and returns the tree as is. -/
theorem parse_relational_wrap (Y : Nat) (t : Token) (ts : List Token) (tree : ASTNode)
    (h : parse_arith (Y + 1) (t :: ts) = .ok (tree, [])) :
    parse_relational (Y + 2) (t :: ts) = .ok (tree, []) := by
  have h1 : parse_relational (Y + 2) (t :: ts)
      = pbind (parse_arith (Y + 1) (t :: ts))
          (fun root input => parse_relational_loop (Y + 1) t.line root input) := rfl
  rw [h1, h]
  rfl

/-- A fully parsed sub-expression passes unchanged through the equality
level: its loop sees the exhausted queue and returns the tree as is. -/
theorem parse_equality_wrap (Y : Nat) (t : Token) (ts : List Token) (tree : ASTNode)
    (h : parse_relational (Y + 1) (t :: ts) = .ok (tree, [])) :
    parse_equality (Y + 2) (t :: ts) = .ok (tree, []) := by
  have h1 : parse_equality (Y + 2) (t :: ts)
      = pbind (parse_relational (Y + 1) (t :: ts))
          (fun root input => parse_equality_loop (Y + 1) t.line root input) := rfl
  rw [h1, h]
  rfl

/-- A fully parsed sub-expression passes unchanged through the and
level: its loop sees the exhausted queue and returns the tree as is. -/
theorem parse_and_wrap (Y : Nat) (t : Token) (ts : List Token) (tree : ASTNode)
    (h : parse_equality (Y + 1) (t :: ts) = .ok (tree, [])) :
    parse_and (Y + 2) (t :: ts) = .ok (tree, []) := by
  have h1 : parse_and (Y + 2) (t :: ts)
      = pbind (parse_equality (Y + 1) (t :: ts))
          (fun root input => parse_and_loop (Y + 1) t.line root input) := rfl
  rw [h1, h]
  rfl

/-- A fully parsed sub-expression passes unchanged through the or
level: its loop sees the exhausted queue and returns the tree as is. -/
theorem parse_or_wrap (Y : Nat) (t : Token) (ts : List Token) (tree : ASTNode)
    (h : parse_and (Y + 1) (t :: ts) = .ok (tree, [])) :
    parse_or (Y + 2) (t :: ts) = .ok (tree, []) := by
  have h1 : parse_or (Y + 2) (t :: ts)
      = pbind (parse_and (Y + 1) (t :: ts))
          (fun root input => parse_or_loop (Y + 1) t.line root input) := rfl
  rw [h1, h]
  rfl

/-- parse_expr hands a non-empty queue straight to parse_or. -/
theorem parse_expr_wrap (Y : Nat) (t : Token) (ts : List Token) (tree : ASTNode)
    (h : parse_or (Y + 1) (t :: ts) = .ok (tree, [])) :
    parse_expr (Y + 2) (t :: ts) = .ok (tree, []) := by
  have h1 : parse_expr (Y + 2) (t :: ts) = parse_or (Y + 1) (t :: ts) := rfl
  rw [h1, h]


/-- Claim C1: the statement-level keyword if dispatch should consume the
keyword, the parenthesised condition and a then Block, and, on a following
keyword else, parse the else-branch as a Block, so that the statement
if (x) then-block else else-block parses successfully with a some empty
else Block.  The code instead hands the else branch to parse_expr
(contradicting its own grammar comment, which says to call parse_block
possibly twice), so the opening brace of the else block is rejected as an
invalid base expression and the whole statement parse aborts. -/
theorem claim_c1_if_else_block : parse_statement 30
    [⟨.KEY, "if", 1⟩, ⟨.SYM, "(", 1⟩, ⟨.ID, "x", 1⟩, ⟨.SYM, ")", 1⟩,
     ⟨.SYM, "\x7b", 1⟩, ⟨.SYM, "\x7d", 1⟩, ⟨.KEY, "else", 1⟩, ⟨.SYM, "\x7b", 1⟩, ⟨.SYM, "\x7d", 1⟩]
    = .error (.msg ("Invalid base expression " ++ sq ++ "\x7b" ++ sq ++ " on line 1\n")) := rfl

/-- Claim C2: multiplicative operators bind tighter than additive ones:
the token sequence of 1 + 2 * 3 parses to ADD(1, MUL(2, 3)), not the
reverse association. -/
theorem claim_c2_precedence : parse_expr 30
    [⟨.DECLIT, "1", 1⟩, ⟨.SYM, "+", 1⟩, ⟨.DECLIT, "2", 1⟩, ⟨.SYM, "*", 1⟩, ⟨.DECLIT, "3", 1⟩]
    = .ok (.BinaryOp .ADDOP (.LiteralInt 1 1)
        (.BinaryOp .MULOP (.LiteralInt 2 1) (.LiteralInt 3 1) 1) 1, []) := rfl

/-- Claim C3: every binary operator level builds a left-leaning tree by
folding left-to-right.  For each of the six levels (logical or, logical and,
equality, relational, additive, multiplicative) and every operand chain of
that level — any length, so in particular three or more operands, any
literal texts and line numbers, and any choice of the level operators at
each position — the expression parse yields exactly the left fold in which
the accumulated tree is the left operand of the next operator; and in
particular 8 - 3 - 2 parses to SUB(SUB(8, 3), 2). -/
theorem claim_c3_left_assoc :
    (∀ (t0 : String × Nat) (ps : List ((String × Nat) × (String × Nat))) (f : Nat),
        (∀ p ∈ ps, p.1.1 = "||") →
        parse_expr (f + ps.length + 9) (chain_toks t0 ps)
          = .ok (chain_fold t0.2 (lit_node t0) ps, []))
    ∧ (∀ (t0 : String × Nat) (ps : List ((String × Nat) × (String × Nat))) (f : Nat),
        (∀ p ∈ ps, p.1.1 = "&&") →
        parse_expr (f + ps.length + 9) (chain_toks t0 ps)
          = .ok (chain_fold t0.2 (lit_node t0) ps, []))
    ∧ (∀ (t0 : String × Nat) (ps : List ((String × Nat) × (String × Nat))) (f : Nat),
        (∀ p ∈ ps, p.1.1 = "==" ∨ p.1.1 = "!=") →
        parse_expr (f + ps.length + 9) (chain_toks t0 ps)
          = .ok (chain_fold t0.2 (lit_node t0) ps, []))
    ∧ (∀ (t0 : String × Nat) (ps : List ((String × Nat) × (String × Nat))) (f : Nat),
        (∀ p ∈ ps, p.1.1 = "<" ∨ p.1.1 = "<=" ∨ p.1.1 = ">" ∨ p.1.1 = ">=") →
        parse_expr (f + ps.length + 9) (chain_toks t0 ps)
          = .ok (chain_fold t0.2 (lit_node t0) ps, []))
    ∧ (∀ (t0 : String × Nat) (ps : List ((String × Nat) × (String × Nat))) (f : Nat),
        (∀ p ∈ ps, p.1.1 = "+" ∨ p.1.1 = "-") →
        parse_expr (f + ps.length + 9) (chain_toks t0 ps)
          = .ok (chain_fold t0.2 (lit_node t0) ps, []))
    ∧ (∀ (t0 : String × Nat) (ps : List ((String × Nat) × (String × Nat))) (f : Nat),
        (∀ p ∈ ps, p.1.1 = "*" ∨ p.1.1 = "/" ∨ p.1.1 = "%") →
        parse_expr (f + ps.length + 9) (chain_toks t0 ps)
          = .ok (chain_fold t0.2 (lit_node t0) ps, []))
    ∧ parse_expr 30 [⟨.DECLIT, "8", 1⟩, ⟨.SYM, "-", 1⟩, ⟨.DECLIT, "3", 1⟩, ⟨.SYM, "-", 1⟩, ⟨.DECLIT, "2", 1⟩]
        = .ok (.BinaryOp .SUBOP (.BinaryOp .SUBOP (.LiteralInt 8 1) (.LiteralInt 3 1) 1)
            (.LiteralInt 2 1) 1, []) := by
  refine ⟨?_, ?_, ?_, ?_, ?_, ?_, rfl⟩
  · intro t0 ps f hops
    obtain ⟨a, la⟩ := t0
    exact parse_expr_wrap _ _ _ _ (parse_or_chain a la f ps hops)
  · intro t0 ps f hops
    obtain ⟨a, la⟩ := t0
    exact parse_expr_wrap _ _ _ _ (parse_or_wrap _ _ _ _ (parse_and_chain a la f ps hops))
  · intro t0 ps f hops
    obtain ⟨a, la⟩ := t0
    exact parse_expr_wrap _ _ _ _ (parse_or_wrap _ _ _ _ (parse_and_wrap _ _ _ _
      (parse_equality_chain a la f ps hops)))
  · intro t0 ps f hops
    obtain ⟨a, la⟩ := t0
    exact parse_expr_wrap _ _ _ _ (parse_or_wrap _ _ _ _ (parse_and_wrap _ _ _ _
      (parse_equality_wrap _ _ _ _ (parse_relational_chain a la f ps hops))))
  · intro t0 ps f hops
    obtain ⟨a, la⟩ := t0
    exact parse_expr_wrap _ _ _ _ (parse_or_wrap _ _ _ _ (parse_and_wrap _ _ _ _
      (parse_equality_wrap _ _ _ _ (parse_relational_wrap _ _ _ _
        (parse_arith_chain a la f ps hops)))))
  · intro t0 ps f hops
    obtain ⟨a, la⟩ := t0
    exact parse_expr_wrap _ _ _ _ (parse_or_wrap _ _ _ _ (parse_and_wrap _ _ _ _
      (parse_equality_wrap _ _ _ _ (parse_relational_wrap _ _ _ _
        (parse_arith_wrap _ _ _ _ (parse_mult_chain a la f ps hops))))))

/-- Witness for C3 at the additive chain 8 - 3 - 2 of the claim. -/
theorem claim_c3_left_assoc_witness :
    (∀ p ∈ [(("-", 1), ("3", 1)), (("-", 1), ("2", 1))],
        ((p : (String × Nat) × (String × Nat)).1.1 = "+" ∨ p.1.1 = "-"))
    ∧ parse_expr 30 (chain_toks ("8", 1) [(("-", 1), ("3", 1)), (("-", 1), ("2", 1))])
        = .ok (.BinaryOp .SUBOP (.BinaryOp .SUBOP (.LiteralInt 8 1) (.LiteralInt 3 1) 1)
            (.LiteralInt 2 1) 1, []) := by
  have hops : ∀ p ∈ [(("-", 1), ("3", 1)), (("-", 1), ("2", 1))],
      ((p : (String × Nat) × (String × Nat)).1.1 = "+" ∨ p.1.1 = "-") := by
    simp
  refine ⟨hops, ?_⟩
  have h := claim_c3_left_assoc.2.2.2.2.1 ("8", 1) [(("-", 1), ("3", 1)), (("-", 1), ("2", 1))] 19 hops
  exact h.trans (by rfl)

/-- Claim C4: a string literal loses its enclosing quotes and has at most one
escape substituted, the first occurrence of the first form found scanning in
the order backslash-n, backslash-t, double backslash, backslash-quote.
Three instances: the quoted token a backslash-n b yields the string a, one
newline character, b; with an earlier backslash-t and a later backslash-n,
the backslash-n is the one substituted (priority order), the backslash-t
left untouched; with two backslash-n occurrences only the first is
substituted. -/
theorem claim_c4_string_escape :
    parse_lit [⟨.STRLIT, "\"a\\nb\"", 1⟩] = .ok (.LiteralStr "a\nb" 1, [])
    ∧ parse_lit [⟨.STRLIT, "\"a\\tb\\nc\"", 1⟩] = .ok (.LiteralStr "a\\tb\nc" 1, [])
    ∧ parse_lit [⟨.STRLIT, "\"a\\nb\\nc\"", 1⟩] = .ok (.LiteralStr "a\nb\\nc" 1, []) :=
  ⟨rfl, rfl, rfl⟩

/-- Claim C5: int a[10]; yields an array VarDecl named a of type INT with
length 10, and int a; yields a scalar VarDecl with is_array false and
length 1. -/
theorem claim_c5_vardecl :
    parse_vardecl [⟨.KEY, "int", 1⟩, ⟨.ID, "a", 1⟩, ⟨.SYM, "[", 1⟩, ⟨.DECLIT, "10", 1⟩, ⟨.SYM, "]", 1⟩, ⟨.SYM, ";", 1⟩]
      = .ok (.VarDecl "a" .INT true 10 1, [])
    ∧ parse_vardecl [⟨.KEY, "int", 1⟩, ⟨.ID, "a", 1⟩, ⟨.SYM, ";", 1⟩]
      = .ok (.VarDecl "a" .INT false 1 1, []) :=
  ⟨rfl, rfl⟩

/-- Counterexample for C6: with the mismatched token the last of the queue,
the code aborts with the plain end-of-input message while computing the line
number, not with a TokenMismatch message naming the expected and actual text
and the failing token line (line 7 here). -/
theorem claim_c6_counterexample :
    match_and_discard_next_token [⟨.SYM, ";", 7⟩] .SYM ")"
      = .error (.msg "Unexpected end of input\n")
    ∧ Err.msg "Unexpected end of input\n"
        ≠ .msg ("Expected " ++ sq ++ ")" ++ sq ++ " but found " ++ sq ++ ";" ++ sq ++ " on line 7\n") :=
  ⟨rfl, by decide⟩

/-- Claim C6 as amended: on a mismatch the TokenMismatch message names the
expected text, the actual text and the line of the token that followed the
mismatched one; when no following token is available the code instead aborts
with the UnexpectedEndOfInput message while looking that line up, so no
TokenMismatch message is produced. -/
theorem claim_c6_mismatch_line (tok nxt : Token) (rest : List Token) (ty : TokenType) (text : String)
    (h : tok.type ≠ ty ∨ tok.text ≠ text) :
    match_and_discard_next_token (tok :: nxt :: rest) ty text
      = .error (.msg ("Expected " ++ sq ++ text ++ sq ++ " but found " ++ sq ++ tok.text
          ++ sq ++ " on line " ++ toString nxt.line ++ "\n"))
    ∧ match_and_discard_next_token [tok] ty text = .error (.msg "Unexpected end of input\n") := by
  have hb : (tok.type != ty || tok.text != text) = true := by
    rcases h with h | h <;> simp [h]
  constructor
  · simp [match_and_discard_next_token, hb, get_next_token_line]
  · simp [match_and_discard_next_token, hb, get_next_token_line]

/-- Witness for C6 at a mismatching semicolon followed by a token on line 9. -/
theorem claim_c6_mismatch_line_witness :
    ((⟨.SYM, ";", 3⟩ : Token).type ≠ .SYM ∨ (⟨.SYM, ";", 3⟩ : Token).text ≠ ")")
    ∧ match_and_discard_next_token [⟨.SYM, ";", 3⟩, ⟨.SYM, ")", 9⟩] .SYM ")"
        = .error (.msg ("Expected " ++ sq ++ ")" ++ sq ++ " but found " ++ sq ++ ";" ++ sq ++ " on line 9\n"))
    ∧ match_and_discard_next_token [⟨.SYM, ";", 3⟩] .SYM ")"
        = .error (.msg "Unexpected end of input\n") := by
  have h : (⟨.SYM, ";", 3⟩ : Token).type ≠ .SYM ∨ (⟨.SYM, ";", 3⟩ : Token).text ≠ ")" :=
    Or.inr (by decide)
  have hm := claim_c6_mismatch_line ⟨.SYM, ";", 3⟩ ⟨.SYM, ")", 9⟩ [] .SYM ")" h
  exact ⟨h, hm.1, hm.2⟩

/-- Claim C7: whenever the top-level program parse succeeds, every input
token has been consumed: the remaining queue of a successful parse_program
is empty. -/
theorem claim_c7_success_consumes_all (fuel : Nat) (input : List Token) (p : ASTNode)
    (rest : List Token) (h : parse_program fuel input = .ok (p, rest)) : rest = [] :=
  parse_program_loop_rest_nil fuel [] [] input p rest h

/-- Witness for C7 at the one-declaration program int a; . -/
theorem claim_c7_success_consumes_all_witness :
    parse_program 30 [⟨.KEY, "int", 1⟩, ⟨.ID, "a", 1⟩, ⟨.SYM, ";", 1⟩]
      = .ok (.Program [.VarDecl "a" .INT false 1 1] [], [])
    ∧ ([] : List Token) = [] :=
  ⟨rfl, claim_c7_success_consumes_all 30 [⟨.KEY, "int", 1⟩, ⟨.ID, "a", 1⟩, ⟨.SYM, ";", 1⟩]
    (.Program [.VarDecl "a" .INT false 1 1] []) [] rfl⟩

/-- Claim C8: an empty token sequence is a legal trivial program — parse on
an empty queue succeeds with empty global and function lists — and the
top-level parse succeeds only with the queue exhausted: any successful parse
leaves an empty remainder. -/
theorem claim_c8_empty_program :
    parse 1 [] = .ok (.Program [] [], [])
    ∧ ∀ (fuel : Nat) (input : List Token) (p : ASTNode) (rest : List Token),
        parse fuel input = .ok (p, rest) → rest = [] :=
  ⟨rfl, fun fuel input p rest h => parse_program_loop_rest_nil fuel [] [] input p rest h⟩

/-- Witness for C8: the inner exhaustion property applied to the program
int g; on line 2. -/
theorem claim_c8_empty_program_witness :
    parse 30 [⟨.KEY, "int", 2⟩, ⟨.ID, "g", 2⟩, ⟨.SYM, ";", 2⟩]
      = .ok (.Program [.VarDecl "g" .INT false 1 2] [], [])
    ∧ ([] : List Token) = [] :=
  ⟨rfl, claim_c8_empty_program.2 30 [⟨.KEY, "int", 2⟩, ⟨.ID, "g", 2⟩, ⟨.SYM, ";", 2⟩]
    (.Program [.VarDecl "g" .INT false 1 2] []) [] rfl⟩

/-- Counterexample for C9: the decimal token of value 2^64 is converted by
the code to -1 (strtol saturates the 64-bit long at LONG_MAX before the
truncating cast), whereas two's-complement wrapping of the token value to 32
bits gives 0 — so the overflow result is not the mod-2^32 wrap of the token
value. -/
theorem claim_c9_counterexample :
    strtol_digits "18446744073709551616" 10 = 18446744073709551616
    ∧ parse_lit [⟨.DECLIT, "18446744073709551616", 1⟩] = .ok (.LiteralInt (-1) 1, [])
    ∧ int32_wrap 18446744073709551616 = 0
    ∧ ((-1 : Int) ≠ 0) :=
  ⟨by decide, rfl, by decide, by decide⟩

/-- Claim C9 as amended: hex literal texts are converted in base 16 and
decimal ones in base 10, never an error; the value goes through the host
64-bit long, which saturates at LONG_MAX on overflow, and is then truncated
two's-complement to 32 bits — so for any token value below 2^63 the result
is exactly the claimed two's-complement wrap of the value modulo 2^32. -/
theorem claim_c9_literal_wrap (text : String) (line : Nat) (rest : List Token) :
    (strtol_digits text 10 < 9223372036854775808 →
      parse_lit (⟨.DECLIT, text, line⟩ :: rest)
        = .ok (.LiteralInt (int32_wrap (strtol_digits text 10)) line, rest))
    ∧ (strtol_digits text 16 < 9223372036854775808 →
      parse_lit (⟨.HEXLIT, text, line⟩ :: rest)
        = .ok (.LiteralInt (int32_wrap (strtol_digits text 16)) line, rest)) := by
  constructor
  · intro h
    have hv : strtol text 10 = Int.ofNat (strtol_digits text 10) := by
      unfold strtol
      rw [Nat.min_eq_left (by omega)]
    have hd : parse_lit (⟨.DECLIT, text, line⟩ :: rest)
        = .ok (.LiteralInt (int32_of_long (strtol text 10)) line, rest) := rfl
    rw [hd, hv, int32_cast_eq_wrap]
  · intro h
    have hv : strtol text 16 = Int.ofNat (strtol_digits text 16) := by
      unfold strtol
      rw [Nat.min_eq_left (by omega)]
    have hd : parse_lit (⟨.HEXLIT, text, line⟩ :: rest)
        = .ok (.LiteralInt (int32_of_long (strtol text 16)) line, rest) := rfl
    rw [hd, hv, int32_cast_eq_wrap]

/-- Witness for C9 at the decimal token 4294967296 = 2^32, which wraps to 0. -/
theorem claim_c9_literal_wrap_witness :
    strtol_digits "4294967296" 10 < 9223372036854775808
    ∧ parse_lit [⟨.DECLIT, "4294967296", 1⟩] = .ok (.LiteralInt 0 1, []) :=
  ⟨by decide, by
    have h := (claim_c9_literal_wrap "4294967296" 1 []).1 (by decide)
    exact h.trans (by rfl)⟩

/-- Claim C10: the identifier dispatch reads the second queue node without an
emptiness check: on a queue holding a single identifier token, both
parse_base_expr and parse_statement dereference the non-existent node (the
nullDeref outcome) instead of reaching any of the programmed error branches;
and whenever a second token exists the lookahead is in bounds, yielding an
ordinary boolean. -/
theorem claim_c10_lookahead :
    parse_base_expr 30 [⟨.ID, "x", 1⟩] = .error .nullDeref
    ∧ parse_statement 30 [⟨.ID, "x", 1⟩] = .error .nullDeref
    ∧ ∀ (t1 t2 : Token) (rest : List Token), ∃ b : Bool,
        id_call_lookahead t1 (t2 :: rest) = .ok b := by
  refine ⟨rfl, rfl, ?_⟩
  intro t1 t2 rest
  unfold id_call_lookahead
  by_cases h : (t1.type == TokenType.ID) = true
  · exact ⟨t2.text == "(", by simp [h]⟩
  · exact ⟨false, by simp [h]⟩

end P2Parser
